import Mathlib

/-!
Shallow embedding of the OpenPoke trigger scheduling and recurrence engine
(`server/services/triggers.py`: `TriggerStore` and `TriggerService`).

Modelling conventions:

* Every timestamp is a UTC instant measured in whole seconds, embedded as `Int`.
  The source stores timestamps as fixed-width ISO-8601 UTC strings truncated to
  seconds (`_to_storage_timestamp`); on that format lexicographic string order
  agrees with instant order, and `datetime.astimezone` never changes the
  instant, so `astimezone(...)` calls are identities here.  Recurrence
  occurrences carry whole seconds (the generated `DTSTART` has second
  precision), so the truncation in `_to_storage_timestamp` is also the
  identity in this model.
* External collaborators are bundled in `Env`:
  - `loadZone` models the IANA database behind `zoneinfo.ZoneInfo`: `none`
    means the constructor raises for that name.
  - `sem` models `dateutil.rrule.rrulestr`: it maps a canonical recurrence
    string to the rule's occurrence instants, listed in the ascending order in
    which the rrule iterator generates them; `rule.after(t, inc)` is then the
    first listed occurrence after (or at, when `inc`) `t`, which `rrule_after`
    implements.
  - `fmt` models `strftime("%Y%m%dT%H%M%S")` applied to a wall-clock value.
* Caller-supplied `start_time` strings arrive here already parsed to the
  instant they denote (`dateutil.parser.isoparse` plus the timezone attachment
  in `_parse_datetime` determine that instant; the parsing itself is external).
* Python truthiness tests on strings (`if recurrence_rule:`, `if agent_name:`,
  `if timezone_name:`, `if not status:`) are embedded as explicit
  emptiness tests on `String`/`Option String`.
* A raised Python exception is an `Except.error`; an operation that returns
  `Except.error` has performed no store write, exactly as the source raises
  before its first store call.
-/

namespace OpenPoke

/-- A resolved timezone: the IANA key and the zone's UTC offset (in seconds)
at a given UTC instant.  Models a `zoneinfo.ZoneInfo` object. -/
structure Tz where
  key : String
  offset : Int → Int

/-- The trigger engine's external collaborators (see the module docstring). -/
structure Env where
  loadZone : String → Option Tz
  sem : String → List Int
  fmt : Int → String

/-- Serialized trigger representation returned to callers
(dataclass `TriggerRecord` / one row of the `triggers` table). -/
structure TriggerRecord where
  id : Nat
  agent_name : String
  payload : String
  start_time : Option Int
  next_trigger : Option Int
  recurrence_rule : Option String
  timezone : Option String
  status : String
  last_error : Option String
  created_at : Int
  updated_at : Int
deriving DecidableEq, Repr

/-- The persistent `triggers` table: its rows plus the auto-increment
counter that assigns the next primary key. -/
structure Store where
  rows : List TriggerRecord
  nextId : Nat
deriving DecidableEq, Repr

/-- A `fields` dict passed to `TriggerStore.update`: an outer `none` means the
column is absent from the dict, an inner `none` means the column is set to SQL
NULL.  Only the columns the service ever writes are present. -/
structure Fields where
  payload : Option String := none
  status : Option String := none
  start_time : Option Int := none
  timezone : Option String := none
  next_trigger : Option (Option Int) := none
  recurrence_rule : Option (Option String) := none
  last_error : Option (Option String) := none
deriving DecidableEq, Repr

/-- The keyword arguments of `TriggerService.update_trigger`. -/
structure UpdateArgs where
  payload : Option String := none
  recurrence_rule : Option String := none
  start_time : Option Int := none
  timezone_name : Option String := none
  status : Option String := none
  last_error : Option String := none
  clear_error : Bool := false
deriving Repr

/-- Module constant `DEFAULT_STATUS`. -/
def DEFAULT_STATUS : String := "active"

/-- Module constant `VALID_STATUSES`. -/
def VALID_STATUSES : List String := ["active", "paused", "completed"]

/-- Module constant `ZoneInfo("UTC")`: key `UTC`, offset always zero. -/
def UTCZone : Tz := { key := "UTC", offset := fun _ => 0 }

/-!
The Python string methods the service uses (`str.strip`, `str.splitlines`,
`str.upper`, `str.lower`, `str.startswith`, `str.join`) are translated below
as structurally recursive functions on the character list of a `String`, so
that every definition in this file evaluates inside the kernel.  Case mapping
is ASCII (`Char.toUpper`/`Char.toLower`), which agrees with Python on every
string that can influence the comparisons made by the service.
-/

/-- Split a character list at every occurrence of the separator
(`str.splitlines` for the newline separator). -/
def split_chars (sep : Char) : List Char → List (List Char)
  | [] => [[]]
  | c :: cs =>
    let r := split_chars sep cs
    if c = sep then [] :: r
    else
      match r with
      | [] => [[c]]
      | h :: t => (c :: h) :: t

/-- Remove leading and trailing whitespace from a character list
(`str.strip`). -/
def strip_chars (l : List Char) : List Char :=
  ((l.dropWhile Char.isWhitespace).reverse.dropWhile Char.isWhitespace).reverse

/-- Python `str.strip()`. -/
def py_strip (s : String) : String := ⟨strip_chars s.data⟩

/-- Python `str.splitlines()`, for texts whose line ends are newlines. -/
def py_splitlines (s : String) : List String :=
  (split_chars '\n' s.data).map (fun l => ⟨l⟩)

/-- Python `str.upper()` (ASCII). -/
def py_upper (s : String) : String := ⟨s.data.map Char.toUpper⟩

/-- Python `str.lower()` (ASCII). -/
def py_lower (s : String) : String := ⟨s.data.map Char.toLower⟩

/-- Python `str.startswith(p)`. -/
def py_startswith (s p : String) : Bool := p.data.isPrefixOf s.data

/-- Python `sep.join(parts)`. -/
def py_join (sep : String) : List String → String
  | [] => ""
  | [x] => x
  | x :: xs => x ++ sep ++ py_join sep xs

/-- `TriggerService._normalize_status`.  A missing or empty status is the
default; otherwise the lower-cased value is kept when listed in
`VALID_STATUSES` and replaced by the default (with a logged warning) when
not. -/
def normalize_status (status : Option String) : String :=
  match status with
  | none => DEFAULT_STATUS
  | some s =>
    if s = "" then DEFAULT_STATUS
    else
      let normalized := py_lower s
      if VALID_STATUSES.contains normalized then normalized else DEFAULT_STATUS

/-- `TriggerService._resolve_timezone`.  An empty or missing name, and a name
the zone database cannot load (`ZoneInfo` raising), all fall back to UTC with
only a logged warning. -/
def resolve_timezone (env : Env) (timezone_name : Option String) : Tz :=
  match timezone_name with
  | some name =>
    if name = "" then UTCZone
    else
      match env.loadZone name with
      | some tz => tz
      | none => UTCZone
  | none => UTCZone

/-- `rule.after(t, inc)` of `dateutil.rrule`: the first occurrence (the
occurrence list ascends) strictly after `t`, or at/after `t` when `inc`. -/
def rrule_after (occs : List Int) (t : Int) (inc : Bool) : Option Int :=
  occs.find? (fun o => if inc then decide (t ≤ o) else decide (t < o))

/-- `Python or` on optional strings: the left value when it is a non-empty
string, otherwise the right value (`timezone_name or existing.timezone`). -/
def py_or_str (a b : Option String) : Option String :=
  match a with
  | some x => if x = "" then b else some x
  | none => b

/-- The list comprehension in `TriggerService._build_recurrence`:
split the stripped recurrence text into lines, strip each, drop blanks (the
blank filter also makes the trailing-newline behavior of `splitlines`
unobservable here). -/
def recurrence_lines (rr : String) : List String :=
  ((py_splitlines (py_strip rr)).map py_strip).filter (fun l => l != "")

/-- The freshly computed `DTSTART` line of `_build_recurrence`: the UTC `Z`
form when the zone's offset at the start instant is zero, otherwise the
zone-qualified form rendering the local wall-clock time. -/
def dtstart_line (env : Env) (start_dt : Int) (tz : Tz) : String :=
  if tz.offset start_dt = 0 then
    "DTSTART:" ++ env.fmt start_dt ++ "Z"
  else
    "DTSTART;TZID=" ++ tz.key ++ ":" ++ env.fmt (start_dt + tz.offset start_dt)

/-- `TriggerService._build_recurrence` on a non-empty recurrence string:
drop caller-supplied `DTSTART` lines, require a remaining rule line (else
raise `ValueError`), prepend `RRULE:` to the first remaining line unless it
already starts with it case-insensitively, and prefix the fresh `DTSTART`. -/
def build_recurrence_core (env : Env) (recurrence_rule : String) (start_dt : Int)
    (tz : Tz) : Except String String :=
  let dt_line := dtstart_line env start_dt tz
  let filtered := (recurrence_lines recurrence_rule).filter
    (fun seg => !(py_startswith (py_upper seg) "DTSTART"))
  match filtered with
  | [] => .error "recurrence_rule must contain an RRULE definition"
  | f0 :: rest =>
    let f0 := if py_startswith (py_upper f0) "RRULE" then f0 else "RRULE:" ++ f0
    .ok (py_join "\n" (dt_line :: f0 :: rest))

/-- `TriggerService._build_recurrence`: `none` (and, by Python truthiness,
the empty string) stores no recurrence. -/
def build_recurrence (env : Env) (recurrence_rule : Option String) (start_dt : Int)
    (tz : Tz) : Except String (Option String) :=
  match recurrence_rule with
  | none => .ok none
  | some rr =>
    if rr = "" then .ok none
    else (build_recurrence_core env rr start_dt tz).map some

/-- `TriggerService._compute_next_fire`.  With a (truthy) recurrence rule:
canonicalize it and take the first occurrence at or after `now` (inclusive).
Without one: the start instant itself, even when it lies in the past (the
source only logs a warning there). -/
def compute_next_fire (env : Env) (recurrence_rule : Option String) (start_dt : Int)
    (tz : Tz) (now : Int) : Except String (Option Int) :=
  match recurrence_rule with
  | some rr =>
    if rr = "" then .ok (some start_dt)
    else
      match build_recurrence_core env rr start_dt tz with
      | .error e => .error e
      | .ok canonical => .ok (rrule_after (env.sem canonical) now true)
  | none => .ok (some start_dt)

/-- `TriggerService._compute_next_after`: first occurrence of the stored
canonical recurrence strictly after `fired_at` (the timezone conversions in
the source do not change the instant). -/
def compute_next_after (env : Env) (stored_recurrence : String) (fired_at : Int) :
    Option Int :=
  rrule_after (env.sem stored_recurrence) fired_at false

/-- The `WHERE id = ? AND agent_name = ?` test used by the store. -/
def row_matches (trigger_id : Nat) (agent_name : String) (r : TriggerRecord) : Bool :=
  r.id == trigger_id && r.agent_name == agent_name

/-- `TriggerStore.fetch_one`: the row scoped to `(id, agent_name)`. -/
def fetch_one (s : Store) (trigger_id : Nat) (agent_name : String) :
    Option TriggerRecord :=
  s.rows.find? (row_matches trigger_id agent_name)

/-- Apply one `fields` dict to a row, as the SQL `UPDATE ... SET` does;
`updated_at` is always rewritten to the current timestamp. -/
def apply_fields (f : Fields) (now : Int) (r : TriggerRecord) : TriggerRecord :=
  { r with
    payload := f.payload.getD r.payload
    status := f.status.getD r.status
    start_time := match f.start_time with | some v => some v | none => r.start_time
    timezone := match f.timezone with | some v => some v | none => r.timezone
    next_trigger := f.next_trigger.getD r.next_trigger
    recurrence_rule := f.recurrence_rule.getD r.recurrence_rule
    last_error := f.last_error.getD r.last_error
    updated_at := now }

/-- An empty `fields` dict (`if not fields: return False`). -/
def Fields.isEmpty (f : Fields) : Bool :=
  f.payload.isNone && f.status.isNone && f.start_time.isNone && f.timezone.isNone &&
    f.next_trigger.isNone && f.recurrence_rule.isNone && f.last_error.isNone

/-- `TriggerStore.update`: rewrite every row matching `(id, agent_name)` and
report whether any row matched (`cursor.rowcount > 0`). -/
def store_update (s : Store) (trigger_id : Nat) (agent_name : String) (f : Fields)
    (now : Int) : Store × Bool :=
  if f.isEmpty then (s, false)
  else
    ({ s with rows := s.rows.map (fun r =>
        if row_matches trigger_id agent_name r then apply_fields f now r else r) },
      s.rows.any (row_matches trigger_id agent_name))

/-- The row filter of `TriggerStore.fetch_due`: active status, non-null
`next_trigger` at or before the cutoff, and — only when a non-empty agent
name is supplied (`if agent_name:`) — the owning agent. -/
def due_pred (agent_name : Option String) (before : Int) (r : TriggerRecord) : Bool :=
  r.status == "active" &&
    (match r.next_trigger with
      | some t => decide (t ≤ before)
      | none => false) &&
    (match agent_name with
      | some a => if a = "" then true else r.agent_name == a
      | none => true)

/-- `TriggerStore.fetch_due`. -/
def fetch_due (s : Store) (agent_name : Option String) (before : Int) :
    List TriggerRecord :=
  s.rows.filter (due_pred agent_name before)

/-- `TriggerService.get_due_triggers`: passthrough to `fetch_due` with the
cutoff normalized to a storage timestamp (an identity on instants here). -/
def get_due_triggers (s : Store) (before : Int) (agent_name : Option String) :
    List TriggerRecord :=
  fetch_due s agent_name before

/-- `TriggerService.create_trigger`.  The next-fire computation and the
recurrence canonicalization run, in source order, before the insert; an
error in either aborts the call with the store untouched. -/
def create_trigger (env : Env) (s : Store) (agent_name payload : String)
    (recurrence_rule : Option String) (start_time : Option Int)
    (timezone_name : Option String) (status : Option String) (now : Int) :
    Except String (Store × TriggerRecord) :=
  let tz := resolve_timezone env timezone_name
  let start_dt := start_time.getD now
  match compute_next_fire env recurrence_rule start_dt tz now with
  | .error e => .error e
  | .ok next_fire =>
    match build_recurrence env recurrence_rule start_dt tz with
    | .error e => .error e
    | .ok stored_recurrence =>
      let record : TriggerRecord := {
        id := s.nextId
        agent_name := agent_name
        payload := payload
        start_time := some start_dt
        next_trigger := next_fire
        recurrence_rule := stored_recurrence
        timezone := some tz.key
        status := normalize_status status
        last_error := none
        created_at := now
        updated_at := now }
      .ok ({ rows := s.rows ++ [record], nextId := s.nextId + 1 }, record)

/-- The tail of `update_trigger`: the `last_error` handling, the
`if not fields: return existing` early return, the store update, and the
choice between the re-fetched row and the pre-update `existing`. -/
def update_finish (s : Store) (trigger_id : Nat) (agent_name : String)
    (existing : TriggerRecord) (f : Fields) (a : UpdateArgs) (now : Int) :
    Store × Option TriggerRecord :=
  let f :=
    if a.clear_error then { f with last_error := some none }
    else
      match a.last_error with
      | some e => { f with last_error := some (some e) }
      | none => f
  if f.isEmpty then (s, some existing)
  else
    let (s2, updated) := store_update s trigger_id agent_name f now
    if updated then (s2, fetch_one s2 trigger_id agent_name) else (s2, some existing)

/-- `TriggerService.update_trigger`.  `sFetch` is the store state the initial
`fetch_one` reads and `sUpd` the state the later `store_update` writes: the
store lock covers each call separately, so another caller may change the
table in between (sequential callers instantiate both with one state). -/
def update_trigger (env : Env) (sFetch sUpd : Store) (trigger_id : Nat)
    (agent_name : String) (a : UpdateArgs) (now : Int) :
    Except String (Store × Option TriggerRecord) :=
  match fetch_one sFetch trigger_id agent_name with
  | none => .ok (sUpd, none)
  | some existing =>
    let tz := resolve_timezone env (py_or_str a.timezone_name existing.timezone)
    let start_dt := a.start_time.getD (existing.start_time.getD now)
    let f : Fields := {}
    let f := match a.payload with
      | some p => { f with payload := some p }
      | none => f
    let f := match a.status with
      | some st => { f with status := some (normalize_status (some st)) }
      | none => f
    let f := match a.start_time with
      | some _ => { f with start_time := some start_dt }
      | none => f
    let f := match a.timezone_name with
      | some _ => { f with timezone := some tz.key }
      | none => f
    let recurrence_to_use :=
      match a.recurrence_rule with
      | some rr => some rr
      | none => existing.recurrence_rule
    if a.recurrence_rule.isSome || a.start_time.isSome || a.timezone_name.isSome then
      match compute_next_fire env recurrence_to_use start_dt tz now with
      | .error e => .error e
      | .ok next_fire =>
        match build_recurrence env recurrence_to_use start_dt tz with
        | .error e => .error e
        | .ok stored =>
          .ok (update_finish sUpd trigger_id agent_name existing
            { f with next_trigger := some next_fire, recurrence_rule := some stored }
            a now)
    else
      .ok (update_finish sUpd trigger_id agent_name existing f a now)

/-- The `fields` dict that `mark_as_completed` writes. -/
def completed_fields : Fields :=
  { status := some "completed", next_trigger := some none, last_error := some none }

/-- `TriggerService.mark_as_completed`: status `completed`, `next_trigger`
NULL, `last_error` cleared. -/
def mark_as_completed (s : Store) (trigger_id : Nat) (agent_name : String)
    (now : Int) : Store :=
  (store_update s trigger_id agent_name completed_fields now).1

/-- `TriggerService.schedule_next_occurrence`.  Without a (truthy) stored
recurrence: equivalent to `mark_as_completed` plus a re-fetch.  With one:
the next occurrence strictly after `fired_at` becomes `next_trigger` and
`last_error` is cleared; when no occurrence remains the status additionally
becomes `completed`. -/
def schedule_next_occurrence (env : Env) (s : Store) (trigger : TriggerRecord)
    (fired_at : Int) (now : Int) : Store × Option TriggerRecord :=
  let completeIt : Store × Option TriggerRecord :=
    let s2 := mark_as_completed s trigger.id trigger.agent_name now
    (s2, fetch_one s2 trigger.id trigger.agent_name)
  match trigger.recurrence_rule with
  | none => completeIt
  | some rr =>
    if rr = "" then completeIt
    else
      let next_fire := compute_next_after env rr fired_at
      let f : Fields :=
        if next_fire.isNone then
          { next_trigger := some next_fire, last_error := some none,
            status := some "completed" }
        else
          { next_trigger := some next_fire, last_error := some none }
      let s2 := (store_update s trigger.id trigger.agent_name f now).1
      (s2, fetch_one s2 trigger.id trigger.agent_name)

/-- `TriggerService.record_failure`: overwrite `last_error`, nothing else. -/
def record_failure (s : Store) (trigger : TriggerRecord) (error : String)
    (now : Int) : Store :=
  (store_update s trigger.id trigger.agent_name
    { last_error := some (some error) } now).1

/-- `TriggerService.clear_next_fire`: NULL out `next_trigger`, then re-fetch. -/
def clear_next_fire (s : Store) (trigger_id : Nat) (agent_name : String)
    (now : Int) : Store × Option TriggerRecord :=
  let s2 := (store_update s trigger_id agent_name { next_trigger := some none } now).1
  (s2, fetch_one s2 trigger_id agent_name)

/-- The record-level invariant of the spec: a completed trigger has no
scheduled next firing. -/
def CompletedInv (r : TriggerRecord) : Prop :=
  r.status = "completed" → r.next_trigger = none

instance (r : TriggerRecord) : Decidable (CompletedInv r) := by
  unfold CompletedInv; infer_instance

/-- Row-wise status terminality between two store states: same table size,
and a row that was `completed` is still `completed`. -/
def status_preserved (old new : Store) : Prop :=
  new.rows.length = old.rows.length ∧
  ∀ i (h1 : i < old.rows.length) (h2 : i < new.rows.length),
    (old.rows[i]).status = "completed" → (new.rows[i]).status = "completed"

/-- A fixed environment for concrete instantiations: an empty zone database,
a recurrence semantics with no occurrence for any rule, and a constant
wall-clock renderer. -/
def envA : Env := { loadZone := fun _ => none, sem := fun _ => [], fmt := fun _ => "WALL" }

/-- A fixed environment whose recurrence semantics yields the occurrence
instants 100 and 200 for every rule. -/
def envB : Env := { loadZone := fun _ => none, sem := fun _ => [100, 200], fmt := fun _ => "WALL" }

/-- A concrete active recurring trigger row. -/
def recB : TriggerRecord :=
  { id := 1, agent_name := "a", payload := "p", start_time := some 0,
    next_trigger := some 100, recurrence_rule := some "DTSTART:WALLZ\nRRULE:FREQ=DAILY",
    timezone := some "UTC", status := "active", last_error := some "boom",
    created_at := 0, updated_at := 0 }

/-- A store holding just `recB`. -/
def storeB : Store := { rows := [recB], nextId := 2 }

/-- A concrete completed trigger row. -/
def recC : TriggerRecord :=
  { id := 1, agent_name := "a", payload := "p", start_time := none,
    next_trigger := none, recurrence_rule := none, timezone := some "UTC",
    status := "completed", last_error := none, created_at := 0, updated_at := 0 }

/-- A store holding just `recC`. -/
def storeC : Store := { rows := [recC], nextId := 2 }

theorem apply_fields_id (f : Fields) (now : Int) (r : TriggerRecord) :
    (apply_fields f now r).id = r.id := rfl

theorem apply_fields_agent_name (f : Fields) (now : Int) (r : TriggerRecord) :
    (apply_fields f now r).agent_name = r.agent_name := rfl

theorem row_matches_apply_fields (tid : Nat) (ag : String) (f : Fields) (now : Int)
    (r : TriggerRecord) :
    row_matches tid ag (apply_fields f now r) = row_matches tid ag r := rfl

/-- Membership in the rows of an updated store: each row is either an
untouched non-matching original row or an updated matching one. -/
theorem mem_store_update_rows {s : Store} {tid : Nat} {ag : String} {f : Fields}
    {now : Int} {r : TriggerRecord} (hf : f.isEmpty = false)
    (h : r ∈ ((store_update s tid ag f now).1).rows) :
    ∃ r0 ∈ s.rows,
      (row_matches tid ag r0 = false ∧ r = r0) ∨
      (row_matches tid ag r0 = true ∧ r = apply_fields f now r0) := by
  unfold store_update at h
  rw [hf] at h
  simp only [Bool.false_eq_true, if_false] at h
  obtain ⟨r0, hr0, heq⟩ := List.mem_map.mp h
  refine ⟨r0, hr0, ?_⟩
  by_cases hm : row_matches tid ag r0
  · exact Or.inr ⟨hm, by rw [← heq, if_pos hm]⟩
  · exact Or.inl ⟨by simpa using hm, by rw [← heq, if_neg hm]⟩

/-- A successful re-fetch after a (non-empty) store update returns an updated
matching row. -/
theorem fetch_one_store_update {s : Store} {tid : Nat} {ag : String} {f : Fields}
    {now : Int} {rec : TriggerRecord} (hf : f.isEmpty = false)
    (h : fetch_one ((store_update s tid ag f now).1) tid ag = some rec) :
    ∃ r0 ∈ s.rows, row_matches tid ag r0 = true ∧ rec = apply_fields f now r0 := by
  have hp : row_matches tid ag rec = true := List.find?_some h
  have hmem : rec ∈ ((store_update s tid ag f now).1).rows :=
    List.mem_of_find?_eq_some h
  obtain ⟨r0, hr0, hcase⟩ := mem_store_update_rows hf hmem
  rcases hcase with ⟨hm, heq⟩ | ⟨hm, heq⟩
  · rw [heq] at hp; rw [hp] at hm; cases hm
  · exact ⟨r0, hr0, hm, heq⟩

/-- C6: creating a one-off trigger (no recurrence) whose start instant lies
strictly in the past succeeds, and the stored `next_trigger` is exactly that
start instant (normalized to UTC): it is neither null nor the current time. -/
theorem create_one_off_past_start (env : Env) (s : Store) (agent_name payload : String)
    (st : Int) (timezone_name status : Option String) (now : Int) (hpast : st < now) :
    ∃ s2 rec,
      create_trigger env s agent_name payload none (some st) timezone_name status now =
        .ok (s2, rec) ∧
      rec.next_trigger = some st ∧
      rec.next_trigger ≠ none ∧
      rec.next_trigger ≠ some now := by
  refine ⟨_, _, rfl, rfl, by simp, ?_⟩
  simp only [ne_eq, Option.some.injEq]
  exact ne_of_lt hpast

/-- Witness for C6 at a concrete past start instant. -/
theorem create_one_off_past_start_witness :
    (3 : Int) < 10 ∧
    ∃ s2 rec,
      create_trigger envA storeB "a" "p" none (some 3) none none 10 = .ok (s2, rec) ∧
      rec.next_trigger = some 3 ∧ rec.next_trigger ≠ none ∧ rec.next_trigger ≠ some 10 :=
  ⟨by decide, create_one_off_past_start envA storeB "a" "p" 3 none none 10 (by decide)⟩

/-- C5: creating a trigger with a (canonicalizable) recurrence rule stores as
`next_trigger` the canonical rule's first occurrence at or after `now`
(inclusive), in UTC; when the rule has no such occurrence `next_trigger` is
null and the row is still inserted. -/
theorem create_recurring_first_occurrence (env : Env) (s : Store)
    (agent_name payload rr : String) (start_time : Option Int)
    (timezone_name status : Option String) (now : Int) (canonical : String)
    (hne : rr ≠ "")
    (hbuild : build_recurrence_core env rr (start_time.getD now)
      (resolve_timezone env timezone_name) = .ok canonical) :
    ∃ s2 rec,
      create_trigger env s agent_name payload (some rr) start_time timezone_name
        status now = .ok (s2, rec) ∧
      rec.next_trigger = rrule_after (env.sem canonical) now true ∧
      rec.recurrence_rule = some canonical ∧
      s2.rows = s.rows ++ [rec] := by
  unfold create_trigger compute_next_fire build_recurrence
  simp only [hne, ite_false, if_false, hbuild, Except.map]
  exact ⟨_, _, rfl, rfl, rfl, rfl⟩

/-- Witness for C5: with the exhausted-recurrence semantics of `envA` the
first occurrence is `none` and the trigger is still created. -/
theorem create_recurring_first_occurrence_witness :
    ("RRULE:FREQ=DAILY" : String) ≠ "" ∧
    build_recurrence_core envA "RRULE:FREQ=DAILY" ((none : Option Int).getD 7)
      (resolve_timezone envA none) = .ok "DTSTART:WALLZ\nRRULE:FREQ=DAILY" ∧
    ∃ s2 rec,
      create_trigger envA storeB "a" "p" (some "RRULE:FREQ=DAILY") none none none 7 =
        .ok (s2, rec) ∧
      rec.next_trigger = rrule_after (envA.sem "DTSTART:WALLZ\nRRULE:FREQ=DAILY") 7 true ∧
      rec.recurrence_rule = some "DTSTART:WALLZ\nRRULE:FREQ=DAILY" ∧
      s2.rows = storeB.rows ++ [rec] :=
  ⟨by decide, by rfl,
    create_recurring_first_occurrence envA storeB "a" "p" "RRULE:FREQ=DAILY" none none
      none 7 "DTSTART:WALLZ\nRRULE:FREQ=DAILY" (by decide) (by rfl)⟩

/-- C2: on a trigger with a (non-empty) stored recurrence,
`schedule_next_occurrence` rewrites `next_trigger` to the recurrence's first
occurrence strictly after `fired_at` (a UTC instant), so a returned record
never carries a non-null `next_trigger ≤ fired_at`; when no such occurrence
exists the record's status is `completed` and `next_trigger` is null. -/
theorem schedule_next_strictly_after (env : Env) (s : Store) (t : TriggerRecord)
    (fired_at now : Int) (rr : String)
    (hrr : t.recurrence_rule = some rr) (hne : rr ≠ "") :
    ∀ rec, (schedule_next_occurrence env s t fired_at now).2 = some rec →
      rec.next_trigger = rrule_after (env.sem rr) fired_at false ∧
      (∀ u, rec.next_trigger = some u → fired_at < u) ∧
      (rrule_after (env.sem rr) fired_at false = none →
        rec.status = "completed" ∧ rec.next_trigger = none) := by
  intro rec hres
  unfold schedule_next_occurrence at hres
  rw [hrr] at hres
  simp only [hne, ite_false, if_false] at hres
  cases hn : compute_next_after env rr fired_at with
  | none =>
    rw [hn] at hres
    simp only [Option.isNone_none, ite_true, if_true] at hres
    obtain ⟨r0, _, _, heq⟩ := fetch_one_store_update (by rfl) hres
    have hnx : rec.next_trigger = none := by rw [heq]; rfl
    refine ⟨?_, ?_, ?_⟩
    · rw [hnx]; exact hn.symm
    · intro u hu; rw [hnx] at hu; cases hu
    · intro _; exact ⟨by rw [heq]; rfl, hnx⟩
  | some u0 =>
    rw [hn] at hres
    simp only [Option.isNone_some, ite_false, if_false] at hres
    obtain ⟨r0, _, _, heq⟩ := fetch_one_store_update (by rfl) hres
    have hnx : rec.next_trigger = some u0 := by rw [heq]; rfl
    refine ⟨?_, ?_, ?_⟩
    · rw [hnx]; exact hn.symm
    · intro u hu
      rw [hnx] at hu
      obtain rfl : u0 = u := Option.some.injEq .. ▸ hu
      have hp := List.find?_some hn
      simpa using hp
    · intro hcontra
      exfalso
      unfold compute_next_after at hn
      rw [hn] at hcontra
      cases hcontra

/-- Witness for C2 at a concrete recurring trigger: fired at 100, the next
stored occurrence is 200, strictly later. -/
theorem schedule_next_strictly_after_witness :
    (schedule_next_occurrence envB storeB recB 100 7).2.map TriggerRecord.next_trigger =
      some (some 200) ∧ (100 : Int) < 200 := by
  refine ⟨rfl, ?_⟩
  have h := schedule_next_strictly_after envB storeB recB 100 7
    "DTSTART:WALLZ\nRRULE:FREQ=DAILY" rfl (by decide)
  exact (h _ rfl).2.1 200 rfl

/-- A row rewrite that matches no row leaves the table unchanged. -/
theorem map_no_match {l : List TriggerRecord} {tid : Nat} {ag : String}
    (h : ∀ r ∈ l, row_matches tid ag r = false) (f : Fields) (now : Int) :
    l.map (fun r => if row_matches tid ag r then apply_fields f now r else r) = l := by
  induction l with
  | nil => rfl
  | cons a l ih =>
    simp only [List.map_cons, h a (List.mem_cons_self a l), Bool.false_eq_true, if_false,
      List.cons.injEq, true_and]
    exact ih (fun r hr => h r (List.mem_cons_of_mem a hr))

/-- C10: when `update_trigger` fetches an existing record but the row is gone
from the store by the time the update statement runs (no row matches), the
call still returns the previously fetched pre-update record — a non-none
return does not mean the requested fields were persisted. -/
theorem update_trigger_stale_row_returns_existing (env : Env) (sF sU : Store)
    (tid : Nat) (ag p : String) (now : Int) (ex : TriggerRecord)
    (hfetch : fetch_one sF tid ag = some ex)
    (hgone : ∀ r ∈ sU.rows, row_matches tid ag r = false) :
    update_trigger env sF sU tid ag { payload := some p } now = .ok (sU, some ex) := by
  have hany : sU.rows.any (row_matches tid ag) = false := by
    rw [List.any_eq_false]
    intro x hx
    simp [hgone x hx]
  unfold update_trigger
  rw [hfetch]
  simp only [Option.isSome_none, Bool.or_self, Bool.false_or, Bool.or_false,
    Bool.false_eq_true, if_false, ite_false]
  unfold update_finish store_update
  simp only [Bool.false_eq_true, if_false, ite_false, hany, map_no_match hgone,
    Fields.isEmpty, Option.isNone_some, Option.isNone_none, Bool.false_and,
    Bool.and_self, Bool.true_and, Bool.and_false]

/-- Witness for C10: the fetched store holds the row, the updated store does
not; the call reports the stale pre-update record over the unchanged store. -/
theorem update_trigger_stale_row_witness :
    fetch_one storeB 1 "a" = some recB ∧
    update_trigger envA storeB { rows := [], nextId := 2 } 1 "a"
      { payload := some "q" } 5 = .ok ({ rows := [], nextId := 2 }, some recB) :=
  ⟨by rfl,
    update_trigger_stale_row_returns_existing envA storeB { rows := [], nextId := 2 }
      1 "a" "q" 5 recB (by rfl) (by intro r hr; cases hr)⟩

/-- C4 counterexample: the empty string satisfies the claim's premise (no
rule line remains after dropping blanks and DTSTART lines) yet
`create_trigger` does not fail — Python truthiness routes the empty
recurrence through the one-off path and a row is inserted. -/
theorem empty_recurrence_not_rejected :
    (recurrence_lines "").filter
      (fun seg => !(py_startswith (py_upper seg) "DTSTART")) = [] ∧
    (create_trigger envA storeB "agent" "p" (some "") none none none 0).isOk = true ∧
    (create_trigger envA storeB "agent" "p" (some "") none none none 0).map
      (fun x => x.1.rows.length) = .ok (storeB.rows.length + 1) :=
  ⟨rfl, rfl, rfl⟩

/-- C4 amended: for every NON-EMPTY recurrence string with no remaining rule
line after dropping blanks and DTSTART lines, `create_trigger` and
`update_trigger` (on an existing row) fail with the validation error, which
is raised before any store write (an `Except.error` result carries no store
state); the empty string is instead treated as no recurrence at all. -/
theorem nonempty_blank_recurrence_rejected (env : Env) (rr : String) (hne : rr ≠ "")
    (hblank : (recurrence_lines rr).filter
      (fun seg => !(py_startswith (py_upper seg) "DTSTART")) = []) :
    (∀ s agent_name payload start_time timezone_name status now,
      create_trigger env s agent_name payload (some rr) start_time timezone_name
        status now = .error "recurrence_rule must contain an RRULE definition") ∧
    (∀ sF sU tid ag a now ex, a.recurrence_rule = some rr →
      fetch_one sF tid ag = some ex →
      update_trigger env sF sU tid ag a now =
        .error "recurrence_rule must contain an RRULE definition") := by
  constructor
  · intro s agent_name payload start_time timezone_name status now
    unfold create_trigger compute_next_fire build_recurrence_core
    simp only [hne, ite_false, if_false, hblank]
  · intro sF sU tid ag a now ex ha hfetch
    unfold update_trigger
    rw [hfetch]
    simp only [ha, Option.isSome_some, Bool.true_or, ite_true, if_true]
    unfold compute_next_fire build_recurrence_core
    simp only [hne, ite_false, if_false, hblank]

/-- Witness for the amended C4 at a DTSTART-only recurrence string. -/
theorem nonempty_blank_recurrence_rejected_witness :
    ("DTSTART:20240101T000000Z" : String) ≠ "" ∧
    (recurrence_lines "DTSTART:20240101T000000Z").filter
      (fun seg => !(py_startswith (py_upper seg) "DTSTART")) = [] ∧
    create_trigger envA storeB "a" "p" (some "DTSTART:20240101T000000Z") none none
      none 0 = .error "recurrence_rule must contain an RRULE definition" :=
  ⟨by decide, by rfl,
    (nonempty_blank_recurrence_rejected envA "DTSTART:20240101T000000Z" (by decide)
      (by rfl)).1 storeB "a" "p" none none none 0⟩

/-- C9 counterexample: the literal string `PAUSED` lies outside
`{active, paused, completed}` yet is stored as `paused`, not as the claimed
fallback `active` — normalization lower-cases before the membership test. -/
theorem status_fallback_counterexample :
    VALID_STATUSES.contains "PAUSED" = false ∧
    normalize_status (some "PAUSED") = "paused" ∧
    normalize_status (some "PAUSED") ≠ "active" :=
  ⟨rfl, rfl, by decide⟩

/-- C9 amended: an unloadable timezone name resolves to UTC and a status
string whose LOWER-CASED form is outside the valid set is stored as
`active`; both normalizers are total functions (nothing is raised), every
stored status is valid, and `create_trigger` with no recurrence succeeds for
every timezone-name and status string. -/
theorem soft_default_fallbacks (env : Env) :
    (∀ name, env.loadZone name = none → resolve_timezone env (some name) = UTCZone) ∧
    (resolve_timezone env none = UTCZone) ∧
    (∀ st, VALID_STATUSES.contains (py_lower st) = false →
      normalize_status (some st) = "active") ∧
    (∀ st, VALID_STATUSES.contains (normalize_status st) = true) ∧
    (∀ s agent_name payload start_time timezone_name status now,
      (create_trigger env s agent_name payload none start_time timezone_name
        status now).isOk = true) := by
  refine ⟨?_, rfl, ?_, ?_, ?_⟩
  · intro name h
    simp only [resolve_timezone]
    by_cases hn : name = ""
    · rw [if_pos hn]
    · rw [if_neg hn, h]
  · intro st h
    simp only [normalize_status]
    by_cases hs : st = ""
    · rw [if_pos hs]; rfl
    · simp only [if_neg hs, h, Bool.false_eq_true, if_false]
      rfl
  · intro st
    match st with
    | none => rfl
    | some s =>
      simp only [normalize_status]
      by_cases hs : s = ""
      · rw [if_pos hs]; rfl
      · simp only [if_neg hs]
        by_cases hc : VALID_STATUSES.contains (py_lower s) = true
        · simp only [hc, if_true]
        · simp only [hc, Bool.false_eq_true, if_false]
          rfl
  · intro s agent_name payload start_time timezone_name status now
    rfl

/-- Witness for the amended C9 at a concrete bad zone name and bad status. -/
theorem soft_default_fallbacks_witness :
    envA.loadZone "Mars/Olympus" = none ∧
    resolve_timezone envA (some "Mars/Olympus") = UTCZone ∧
    VALID_STATUSES.contains (py_lower "Bogus") = false ∧
    normalize_status (some "Bogus") = "active" ∧
    (create_trigger envA storeB "a" "p" none none (some "Mars/Olympus") (some "Bogus")
      0).isOk = true := by
  have h := soft_default_fallbacks envA
  exact ⟨rfl, h.1 "Mars/Olympus" rfl, by rfl, h.2.2.1 "Bogus" (by rfl),
    h.2.2.2.2 storeB "a" "p" none (some "Mars/Olympus") (some "Bogus") 0⟩

/-- C7: for a recurrence body in the forms the service accepts (its first
effective line is literally `RRULE:`-prefixed — e.g. `RRULE:FREQ=...` — or
does not start with `RRULE` at all — e.g. bare `FREQ=...`; caller-supplied
`DTSTART` lines and blanks are dropped first), the stored canonical form is
a fresh `DTSTART` line — the UTC `Z` form when the zone's offset at the
start instant is zero, else the `DTSTART;TZID=<zone>:<local-wall-time>`
form — followed by a line literally prefixed `RRULE:`, then the remaining
lines. -/
theorem build_recurrence_canonical_form (env : Env) (rr : String) (start_dt : Int)
    (tz : Tz) (f0 : String) (rest : List String)
    (hlines : (recurrence_lines rr).filter
      (fun seg => !(py_startswith (py_upper seg) "DTSTART")) = f0 :: rest)
    (hform : (∃ t, f0 = "RRULE:" ++ t) ∨ py_startswith (py_upper f0) "RRULE" = false) :
    ∃ dt second,
      build_recurrence_core env rr start_dt tz =
        .ok (py_join "\n" (dt :: second :: rest)) ∧
      (tz.offset start_dt = 0 → dt = "DTSTART:" ++ env.fmt start_dt ++ "Z") ∧
      (tz.offset start_dt ≠ 0 →
        dt = "DTSTART;TZID=" ++ tz.key ++ ":" ++ env.fmt (start_dt + tz.offset start_dt)) ∧
      ∃ tl, second = "RRULE:" ++ tl := by
  refine ⟨dtstart_line env start_dt tz,
    if py_startswith (py_upper f0) "RRULE" then f0 else "RRULE:" ++ f0,
    ?_, ?_, ?_, ?_⟩
  · simp only [build_recurrence_core, hlines]
  · intro h; simp only [dtstart_line, if_pos h]
  · intro h; simp only [dtstart_line, if_neg h]
  · by_cases hb : py_startswith (py_upper f0) "RRULE" = true
    · rw [if_pos hb]
      rcases hform with ⟨t, ht⟩ | hfalse
      · exact ⟨t, ht⟩
      · rw [hb] at hfalse; cases hfalse
    · rw [if_neg hb]
      exact ⟨f0, rfl⟩

/-- Witness for C7 at the bare body `FREQ=DAILY` in UTC. -/
theorem build_recurrence_canonical_form_witness :
    (recurrence_lines "FREQ=DAILY").filter
      (fun seg => !(py_startswith (py_upper seg) "DTSTART")) = "FREQ=DAILY" :: [] ∧
    ∃ dt second,
      build_recurrence_core envA "FREQ=DAILY" 0 UTCZone =
        .ok (py_join "\n" (dt :: second :: [])) ∧
      (UTCZone.offset 0 = 0 → dt = "DTSTART:" ++ envA.fmt 0 ++ "Z") ∧
      (UTCZone.offset 0 ≠ 0 →
        dt = "DTSTART;TZID=" ++ UTCZone.key ++ ":" ++ envA.fmt (0 + UTCZone.offset 0)) ∧
      ∃ tl, second = "RRULE:" ++ tl :=
  ⟨by rfl,
    build_recurrence_canonical_form envA "FREQ=DAILY" 0 UTCZone "FREQ=DAILY" []
      (by rfl) (Or.inr (by rfl))⟩

/-- The row fields C8 asserts are untouched by `record_failure`. -/
def frame_proj (r : TriggerRecord) :
    Option Int × String × String × Option String × Option Int × Option String :=
  (r.next_trigger, r.status, r.payload, r.recurrence_rule, r.start_time, r.timezone)

/-- Identity of a due row as C8's dueness argument needs it. -/
def frame_key (r : TriggerRecord) : Nat × String × Option Int × String :=
  (r.id, r.agent_name, r.next_trigger, r.status)

/-- Filtering commutes with a per-row rewrite that changes neither the filter
predicate nor the projection. -/
theorem filter_map_comm {β : Type} (g : TriggerRecord → TriggerRecord)
    (p : TriggerRecord → Bool) (pr : TriggerRecord → β) (l : List TriggerRecord)
    (hp : ∀ r, p (g r) = p r) (hpr : ∀ r, pr (g r) = pr r) :
    ((l.map g).filter p).map pr = (l.filter p).map pr := by
  induction l with
  | nil => rfl
  | cons a l ih =>
    simp only [List.map_cons, List.filter_cons, hp a]
    cases hpa : p a
    · simpa using ih
    · simp only [if_true, List.map_cons, hpr a, ih]

/-- The table after `record_failure`, as a per-row rewrite. -/
theorem record_failure_rows (s : Store) (t : TriggerRecord) (e : String) (now : Int) :
    (record_failure s t e now).rows = s.rows.map (fun r =>
      if row_matches t.id t.agent_name r then
        apply_fields { last_error := some (some e) } now r
      else r) := rfl

/-- C8: `record_failure` overwrites `last_error` on the matching row and
leaves `next_trigger`, `status`, `payload`, `recurrence_rule`, `start_time`
and `timezone` of every row unchanged; consequently the due set (by row
identity, scheduled instant and status) is unchanged for every cutoff and
agent filter — an active due trigger remains due. -/
theorem record_failure_frame (s : Store) (t : TriggerRecord) (e : String) (now : Int) :
    ((record_failure s t e now).rows.map frame_proj = s.rows.map frame_proj) ∧
    ((record_failure s t e now).rows.length = s.rows.length) ∧
    (∀ i (h1 : i < s.rows.length) (h2 : i < (record_failure s t e now).rows.length),
      row_matches t.id t.agent_name (s.rows.get ⟨i, h1⟩) = true →
      ((record_failure s t e now).rows.get ⟨i, h2⟩).last_error = some e) ∧
    (∀ agent_q before,
      (fetch_due (record_failure s t e now) agent_q before).map frame_key =
        (fetch_due s agent_q before).map frame_key) := by
  have hπ : ∀ r, frame_proj
      (if row_matches t.id t.agent_name r then
        apply_fields { last_error := some (some e) } now r else r) = frame_proj r := by
    intro r
    by_cases h : row_matches t.id t.agent_name r = true
    · rw [if_pos h]; rfl
    · rw [if_neg h]
  have hkey : ∀ r, frame_key
      (if row_matches t.id t.agent_name r then
        apply_fields { last_error := some (some e) } now r else r) = frame_key r := by
    intro r
    by_cases h : row_matches t.id t.agent_name r = true
    · rw [if_pos h]; rfl
    · rw [if_neg h]
  have hdue : ∀ agent_q before (r : TriggerRecord), due_pred agent_q before
      (if row_matches t.id t.agent_name r then
        apply_fields { last_error := some (some e) } now r else r) =
      due_pred agent_q before r := by
    intro agent_q before r
    by_cases h : row_matches t.id t.agent_name r = true
    · rw [if_pos h]; rfl
    · rw [if_neg h]
  refine ⟨?_, ?_, ?_, ?_⟩
  · rw [record_failure_rows, List.map_map]
    exact List.map_congr_left (fun r _ => hπ r)
  · rw [record_failure_rows, List.length_map]
  · intro i h1 h2 hmatch
    have : (record_failure s t e now).rows.get ⟨i, h2⟩ =
        (if row_matches t.id t.agent_name (s.rows.get ⟨i, h1⟩) then
          apply_fields { last_error := some (some e) } now (s.rows.get ⟨i, h1⟩)
        else s.rows.get ⟨i, h1⟩) := by
      have h2m : i < (s.rows.map (fun r =>
          if row_matches t.id t.agent_name r then
            apply_fields { last_error := some (some e) } now r else r)).length := by
        rw [List.length_map]; exact h1
      simpa using List.getElem_map ..
    rw [this, if_pos hmatch]
    rfl
  · intro agent_q before
    unfold fetch_due
    rw [record_failure_rows]
    exact filter_map_comm _ _ _ _ (hdue agent_q before) hkey

/-- Witness for C8 on the concrete failing trigger `recB`. -/
theorem record_failure_frame_witness :
    ((record_failure storeB recB "err2" 3).rows.map frame_proj =
      storeB.rows.map frame_proj) ∧
    ((record_failure storeB recB "err2" 3).rows.get ⟨0, by decide⟩).last_error =
      some "err2" ∧
    (fetch_due (record_failure storeB recB "err2" 3) none 1000).map frame_key =
      (fetch_due storeB none 1000).map frame_key := by
  have h := record_failure_frame storeB recB "err2" 3
  exact ⟨h.1, h.2.2.1 0 (by decide) (by decide) (by decide), h.2.2.2 none 1000⟩

/-- The table after `mark_as_completed`, as a per-row rewrite. -/
theorem mark_as_completed_rows (s : Store) (tid : Nat) (ag : String) (now : Int) :
    (mark_as_completed s tid ag now).rows = s.rows.map (fun r =>
      if row_matches tid ag r then apply_fields completed_fields now r else r) := rfl

/-- A second active row owned by the same agent, for concrete stores with
more than one trigger. -/
def recB2 : TriggerRecord := { recB with id := 2 }

/-- A store holding `recB` and `recB2`. -/
def storeD : Store := { rows := [recB, recB2], nextId := 3 }

/-- C3: after `mark_as_completed (tid, ag)`, no `get_due_triggers` /
`fetch_due` result contains that trigger, for every cutoff and every agent
filter; and a second `mark_as_completed` leaves `status`, `next_trigger` and
`last_error` of every row exactly as the first left them (idempotence). -/
theorem mark_as_completed_excludes_due (s : Store) (tid : Nat) (ag : String)
    (now now2 : Int) :
    (∀ before agent_q r, r ∈ fetch_due (mark_as_completed s tid ag now) agent_q before →
      ¬(r.id = tid ∧ r.agent_name = ag)) ∧
    ((mark_as_completed (mark_as_completed s tid ag now) tid ag now2).rows.map
        (fun r => (r.status, r.next_trigger, r.last_error)) =
      (mark_as_completed s tid ag now).rows.map
        (fun r => (r.status, r.next_trigger, r.last_error))) := by
  constructor
  · intro before agent_q r hr hid
    obtain ⟨hmem, hpred⟩ := List.mem_filter.mp hr
    simp only [due_pred, Bool.and_eq_true, beq_iff_eq] at hpred
    have hact : r.status = "active" := hpred.1.1
    obtain ⟨r0, _, hcase⟩ := mem_store_update_rows (by rfl) hmem
    rcases hcase with ⟨hm, heq⟩ | ⟨_, heq⟩
    · rw [← heq] at hm
      simp only [row_matches, hid.1, hid.2, beq_self_eq_true, Bool.and_self] at hm
      cases hm
    · have hc : r.status = "completed" := by rw [heq]; rfl
      rw [hact] at hc
      exact absurd hc (by decide)
  · rw [mark_as_completed_rows (mark_as_completed s tid ag now), List.map_map]
    apply List.map_congr_left
    intro x hx
    simp only [Function.comp]
    by_cases hm : row_matches tid ag x = true
    · rw [if_pos hm]
      obtain ⟨r0, _, hcase⟩ := mem_store_update_rows (by rfl) hx
      rcases hcase with ⟨hm0, heq⟩ | ⟨_, heq⟩
      · rw [heq] at hm; rw [hm] at hm0; cases hm0
      · rw [heq]; rfl
    · rw [if_neg hm]

/-- Witness for C3: a two-trigger store; after completing trigger 1, the due
set still contains trigger 2 but excludes trigger 1, and a second completion
changes none of the three fields. -/
theorem mark_as_completed_excludes_due_witness :
    recB2 ∈ fetch_due (mark_as_completed storeD 1 "a" 9) none 1000 ∧
    ¬(recB2.id = 1 ∧ recB2.agent_name = "a") ∧
    ((mark_as_completed (mark_as_completed storeD 1 "a" 9) 1 "a" 11).rows.map
        (fun r => (r.status, r.next_trigger, r.last_error)) =
      (mark_as_completed storeD 1 "a" 9).rows.map
        (fun r => (r.status, r.next_trigger, r.last_error))) := by
  have h := mark_as_completed_excludes_due storeD 1 "a" 9 11
  exact ⟨by decide, h.1 1000 none recB2 (by decide), h.2⟩

/-- C1 counterexample: a completed trigger is returned to `active` by
`update_trigger` with an explicit status argument — the completed state is
not terminal under the service's full operation set. -/
theorem completed_trigger_resurrected :
    recC.status = "completed" ∧
    recC ∈ storeC.rows ∧
    (update_trigger envA storeC storeC 1 "a" { status := some "active" } 5).map
      (fun x => x.2.map TriggerRecord.status) = .ok (some "active") :=
  ⟨rfl, by decide, rfl⟩

/-- A store update never grows or shrinks the table. -/
theorem store_update_length (s : Store) (tid : Nat) (ag : String) (f : Fields)
    (now : Int) :
    ((store_update s tid ag f now).1).rows.length = s.rows.length := by
  unfold store_update
  by_cases hf : f.isEmpty = true
  · rw [if_pos hf]
  · rw [if_neg hf]
    exact List.length_map ..

/-- A store update whose `fields` dict either omits `status` or sets it to
`completed` never moves a row out of the completed status. -/
theorem store_update_status_mono (s : Store) (tid : Nat) (ag : String) (f : Fields)
    (now : Int) (hf : f.status = none ∨ f.status = some "completed") :
    status_preserved s ((store_update s tid ag f now).1) := by
  refine ⟨store_update_length .., ?_⟩
  intro i h1 h2 hc
  by_cases hfe : f.isEmpty = true
  · simp only [store_update, hfe, if_true]
    exact hc
  · have hfe' : f.isEmpty = false := by simpa using hfe
    simp only [store_update, hfe', Bool.false_eq_true, if_false, List.getElem_map]
    by_cases hm : row_matches tid ag (s.rows[i]) = true
    · rw [if_pos hm]
      have : (apply_fields f now (s.rows[i])).status =
          f.status.getD (s.rows[i]).status := rfl
      rw [this]
      rcases hf with hnone | hcompl
      · rw [hnone, Option.getD_none]
        exact hc
      · rw [hcompl]
        rfl
    · rw [if_neg hm]
      exact hc

/-- A store update preserves the completed-implies-null invariant whenever it
nulls `next_trigger`, or touches neither `next_trigger` nor `status`, or
omits `status` while no completed row matches the key. -/
theorem store_update_inv (s : Store) (tid : Nat) (ag : String) (f : Fields)
    (now : Int) (hinv : ∀ r ∈ s.rows, CompletedInv r)
    (hcase : f.next_trigger = some none ∨
      (f.next_trigger = none ∧ f.status = none) ∨
      (f.status = none ∧
        ∀ r ∈ s.rows, row_matches tid ag r = true → r.status ≠ "completed")) :
    ∀ r ∈ ((store_update s tid ag f now).1).rows, CompletedInv r := by
  intro r hr
  by_cases hfe : f.isEmpty = true
  · unfold store_update at hr
    rw [if_pos hfe] at hr
    exact hinv r hr
  · have hfe' : f.isEmpty = false := by simpa using hfe
    obtain ⟨r0, hr0, hcases⟩ := mem_store_update_rows hfe' hr
    rcases hcases with ⟨_, heq⟩ | ⟨hm, heq⟩
    · exact heq ▸ hinv r0 hr0
    · subst heq
      have hsv : (apply_fields f now r0).status = f.status.getD r0.status := rfl
      have hnv : (apply_fields f now r0).next_trigger =
          f.next_trigger.getD r0.next_trigger := rfl
      rcases hcase with hnull | ⟨hnt, hst⟩ | ⟨hst, htarget⟩
      · intro _
        rw [hnv, hnull]
        rfl
      · intro hcompl
        rw [hsv, hst, Option.getD_none] at hcompl
        rw [hnv, hnt, Option.getD_none]
        exact hinv r0 hr0 hcompl
      · intro hcompl
        rw [hsv, hst, Option.getD_none] at hcompl
        exact absurd hcompl (htarget r0 hr0 hm)

/-- C1 amended: over a table satisfying completed-implies-null, the firing
cycle maintains it: `mark_as_completed` yields it on every row and drives
the matching row to `completed`/null; `record_failure` and `clear_next_fire`
preserve it; `schedule_next_occurrence` preserves it when no completed row
matches the trigger's key; and none of these four operations ever moves a
row out of `completed`.  (By `completed_trigger_resurrected` and the
explicit-status paths of `create_trigger`/`update_trigger`, the claim's full
generality fails.) -/
theorem completed_terminal_firing_cycle (env : Env) (s : Store)
    (hinv : ∀ r ∈ s.rows, CompletedInv r) :
    (∀ tid ag now r, r ∈ (mark_as_completed s tid ag now).rows → CompletedInv r) ∧
    (∀ tid ag now r, r ∈ (mark_as_completed s tid ag now).rows →
      row_matches tid ag r = true → r.status = "completed" ∧ r.next_trigger = none) ∧
    (∀ t e now r, r ∈ (record_failure s t e now).rows → CompletedInv r) ∧
    (∀ tid ag now r, r ∈ ((clear_next_fire s tid ag now).1).rows → CompletedInv r) ∧
    (∀ t fired now,
      (∀ r ∈ s.rows, row_matches t.id t.agent_name r = true → r.status ≠ "completed") →
      ∀ r ∈ ((schedule_next_occurrence env s t fired now).1).rows, CompletedInv r) ∧
    (∀ tid ag now, status_preserved s (mark_as_completed s tid ag now)) ∧
    (∀ t e now, status_preserved s (record_failure s t e now)) ∧
    (∀ tid ag now, status_preserved s ((clear_next_fire s tid ag now).1)) ∧
    (∀ t fired now, status_preserved s ((schedule_next_occurrence env s t fired now).1)) := by
  refine ⟨?_, ?_, ?_, ?_, ?_, ?_, ?_, ?_, ?_⟩
  · intro tid ag now r hr
    exact store_update_inv s tid ag completed_fields now hinv (Or.inl rfl) r hr
  · intro tid ag now r hr hm
    obtain ⟨r0, _, hcases⟩ := mem_store_update_rows (by rfl) hr
    rcases hcases with ⟨hm0, heq⟩ | ⟨_, heq⟩
    · rw [heq] at hm; rw [hm] at hm0; cases hm0
    · rw [heq]
      exact ⟨rfl, rfl⟩
  · intro t e now r hr
    exact store_update_inv s t.id t.agent_name _ now hinv (Or.inr (Or.inl ⟨rfl, rfl⟩)) r hr
  · intro tid ag now r hr
    exact store_update_inv s tid ag _ now hinv (Or.inl rfl) r hr
  · intro t fired now htarget r hr
    rcases htr : t.recurrence_rule with _ | rr
    · simp only [schedule_next_occurrence, htr] at hr
      exact store_update_inv s t.id t.agent_name completed_fields now hinv (Or.inl rfl) r hr
    · simp only [schedule_next_occurrence, htr] at hr
      by_cases hrre : rr = ""
      · rw [if_pos hrre] at hr
        exact store_update_inv s t.id t.agent_name completed_fields now hinv (Or.inl rfl) r hr
      · rw [if_neg hrre] at hr
        cases hn : compute_next_after env rr fired with
        | none =>
          rw [hn] at hr
          simp only [Option.isNone_none, if_true, ite_true] at hr
          exact store_update_inv s t.id t.agent_name _ now hinv (Or.inl rfl) r hr
        | some u =>
          rw [hn] at hr
          simp only [Option.isNone_some, Bool.false_eq_true, if_false, ite_false] at hr
          exact store_update_inv s t.id t.agent_name _ now hinv
            (Or.inr (Or.inr ⟨rfl, htarget⟩)) r hr
  · intro tid ag now
    exact store_update_status_mono s tid ag completed_fields now (Or.inr rfl)
  · intro t e now
    exact store_update_status_mono s t.id t.agent_name _ now (Or.inl rfl)
  · intro tid ag now
    exact store_update_status_mono s tid ag _ now (Or.inl rfl)
  · intro t fired now
    rcases htr : t.recurrence_rule with _ | rr
    · simp only [schedule_next_occurrence, htr]
      exact store_update_status_mono s t.id t.agent_name completed_fields now (Or.inr rfl)
    · simp only [schedule_next_occurrence, htr]
      by_cases hrre : rr = ""
      · rw [if_pos hrre]
        exact store_update_status_mono s t.id t.agent_name completed_fields now (Or.inr rfl)
      · rw [if_neg hrre]
        cases hn : compute_next_after env rr fired with
        | none =>
          simp only [Option.isNone_none, if_true, ite_true]
          exact store_update_status_mono s t.id t.agent_name _ now (Or.inr rfl)
        | some u =>
          simp only [Option.isNone_some, Bool.false_eq_true, if_false, ite_false]
          exact store_update_status_mono s t.id t.agent_name _ now (Or.inl rfl)

/-- Witness for the amended C1: the invariant holds on the concrete store,
and marking its trigger completed produces the completed/null row. -/
theorem completed_terminal_firing_cycle_witness :
    (∀ r ∈ storeB.rows, CompletedInv r) ∧
    (apply_fields completed_fields 9 recB).status = "completed" ∧
    (apply_fields completed_fields 9 recB).next_trigger = none := by
  have hinv : ∀ r ∈ storeB.rows, CompletedInv r := by decide
  exact ⟨hinv, (completed_terminal_firing_cycle envA storeB hinv).2.1 1 "a" 9
    (apply_fields completed_fields 9 recB) (by decide) (by decide)⟩

end OpenPoke
